import Mathlib

/-!
Verification of the DevIT backend (src/backend/api.py) against its
natural-language specification.

The embedding is shallow: MongoDB collections become association lists keyed
by the document id, documents become structures, and each FastAPI handler
becomes a pure function from the collection state (plus the request data and
an explicit clock / randomness argument) to the new collection state and an
HTTP-level result.  MongoDB update operators are translated by their effect on
the stored document: membership in a list models the `in` checks on the
voter arrays, list append models the push operator, removing every matching
element models the pull operator, and integer addition models inc.
-/

deriving instance DecidableEq for Except

/-- The pair of voter arrays stored under the voters field of a post or
comment document. -/
structure Voters where
  upvoters : List String
  downvoters : List String
deriving Repr, DecidableEq

/-- The vote-relevant fields of a post or comment document.  Content fields
(title, content, author, imageUrl, created_at and so on) are elided: the vote
logic never reads them.  The voters field is optional because freshly created
documents are inserted without it. -/
structure Reactable where
  upvotes : Int
  downvotes : Int
  voters : Option Voters
deriving Repr, DecidableEq

/-- A MongoDB collection of reactables: an association list from document id
to document.  Document ids are unique in MongoDB; lookup takes the first
match and updates rewrite the first match, which agrees with find_one and
update_one. -/
abbrev DB := List (String × Reactable)

/-- find_one on the collection: the first document with the given id. -/
def lookupDb (db : DB) (id : String) : Option Reactable :=
  match db with
  | [] => none
  | (k, v) :: rest => if k = id then some v else lookupDb rest id

/-- update_one on the collection: replace the first document with the given
id by the given document (no effect when the id is absent). -/
def dbSet (db : DB) (id : String) (r : Reactable) : DB :=
  match db with
  | [] => []
  | (k, v) :: rest => if k = id then (k, r) :: rest else (k, v) :: dbSet rest id r

/-- post.get("voters", default) in post_helper, comment_helper and the vote
handlers: the voters field, defaulting to empty arrays when absent. -/
def post_helper_voters (r : Reactable) : Voters :=
  r.voters.getD ⟨[], []⟩

/-- The migration-on-read write performed by vote_post and vote_comment when
the voters field is absent: set it to empty arrays, leave it alone otherwise. -/
def normalizeVoters (r : Reactable) : Reactable :=
  match r.voters with
  | none => { r with voters := some ⟨[], []⟩ }
  | some _ => r

/-- The error kinds the vote handlers can raise: 404 for a missing document
and 400 for a vote_type outside the four recognised ones.  (The source
spells the 404 detail "Post not found" in vote_post and "Comment not found"
in vote_comment; the error kind is what the spec names.) -/
inductive VoteError where
  | notFound
  | invalidArgument
deriving Repr, DecidableEq

/-- A successful vote response: the returned document (the vote-relevant part
of post_helper / comment_helper), plus the message and action fields that the
no-op branches add and the effective branches omit. -/
structure VoteResult where
  record : Reactable
  message : Option String
  action : Option String
deriving Repr, DecidableEq

/-- vote_post from src/backend/api.py: look the post up (404 when absent),
lazily initialise the voters field when it is missing (a persisted write,
after which the handler re-reads the document), then dispatch on vote_type:
each no-op branch returns early with action "none", each effective branch
issues one update combining pulls, pushes and counter increments.  ObjectId
parsing is elided: ids are opaque strings here. -/
def vote_post (db : DB) (postId userId voteType : String) :
    DB × Except VoteError VoteResult :=
  match lookupDb db postId with
  | none => (db, .error .notFound)
  | some post0 =>
    let post := normalizeVoters post0
    let db1 := if post0.voters.isNone then dbSet db postId post else db
    let upvoters := (post_helper_voters post).upvoters
    let downvoters := (post_helper_voters post).downvoters
    if voteType = "upvote" then
      if userId ∈ upvoters then
        (db1, .ok ⟨post, some "Already upvoted", some "none"⟩)
      else if userId ∈ downvoters then
        let updated : Reactable :=
          ⟨post.upvotes + 1, post.downvotes - 1,
            some ⟨upvoters ++ [userId], downvoters.filter (fun x => x ≠ userId)⟩⟩
        (dbSet db1 postId updated, .ok ⟨updated, none, none⟩)
      else
        let updated : Reactable :=
          ⟨post.upvotes + 1, post.downvotes,
            some ⟨upvoters ++ [userId], downvoters⟩⟩
        (dbSet db1 postId updated, .ok ⟨updated, none, none⟩)
    else if voteType = "downvote" then
      if userId ∈ downvoters then
        (db1, .ok ⟨post, some "Already downvoted", some "none"⟩)
      else if userId ∈ upvoters then
        let updated : Reactable :=
          ⟨post.upvotes - 1, post.downvotes + 1,
            some ⟨upvoters.filter (fun x => x ≠ userId), downvoters ++ [userId]⟩⟩
        (dbSet db1 postId updated, .ok ⟨updated, none, none⟩)
      else
        let updated : Reactable :=
          ⟨post.upvotes, post.downvotes + 1,
            some ⟨upvoters, downvoters ++ [userId]⟩⟩
        (dbSet db1 postId updated, .ok ⟨updated, none, none⟩)
    else if voteType = "remove_upvote" then
      if userId ∉ upvoters then
        (db1, .ok ⟨post, some "Not upvoted", some "none"⟩)
      else
        let updated : Reactable :=
          ⟨post.upvotes - 1, post.downvotes,
            some ⟨upvoters.filter (fun x => x ≠ userId), downvoters⟩⟩
        (dbSet db1 postId updated, .ok ⟨updated, none, none⟩)
    else if voteType = "remove_downvote" then
      if userId ∉ downvoters then
        (db1, .ok ⟨post, some "Not downvoted", some "none"⟩)
      else
        let updated : Reactable :=
          ⟨post.upvotes, post.downvotes - 1,
            some ⟨upvoters, downvoters.filter (fun x => x ≠ userId)⟩⟩
        (dbSet db1 postId updated, .ok ⟨updated, none, none⟩)
    else
      (db1, .error .invalidArgument)

/-- vote_comment from src/backend/api.py duplicates the body of vote_post
verbatim against the comments collection (only the 404 detail string
differs), so on this embedding it is the same function. -/
def vote_comment : DB → String → String → String → DB × Except VoteError VoteResult :=
  vote_post

/-- The document inserted by create_post: zero counters, no voters field.
Content fields are elided as in Reactable. -/
def new_post_doc : Reactable :=
  { upvotes := 0, downvotes := 0, voters := none }

/-- The document inserted by create_comment: zero counters, no voters field. -/
def new_comment_doc : Reactable :=
  { upvotes := 0, downvotes := 0, voters := none }

/-- create_post from src/backend/api.py, restricted to its effect on the
posts collection: insert_one of the new document. -/
def create_post (db : DB) (postId : String) : DB :=
  db ++ [(postId, new_post_doc)]

/-- create_comment restricted to its effect on the comments collection. -/
def create_comment (db : DB) (commentId : String) : DB :=
  db ++ [(commentId, new_comment_doc)]

/-- A document of the users collection.  Optional fields model MongoDB field
absence: refresh_token is set on login and unset on logout, reset_code and
reset_code_expiry are set by request_password_reset and unset on a confirmed
reset.  Timestamps are seconds (a Nat clock models datetime.utcnow()), and a
reset code is kept as the number the source renders in decimal. -/
structure User where
  id : String
  username : String
  email : String
  password : String
  karma : Int
  bio : String
  refresh_token : Option String := none
  reset_code : Option Nat := none
  reset_code_expiry : Option Nat := none
deriving Repr, DecidableEq

/-- The users collection. -/
abbrev UserDB := List User

/-- find_one by email (get_user_by_email in the source). -/
def get_user_by_email (db : UserDB) (email : String) : Option User :=
  match db with
  | [] => none
  | u :: rest => if u.email = email then some u else get_user_by_email rest email

/-- find_one by username. -/
def find_user_by_username (db : UserDB) (username : String) : Option User :=
  match db with
  | [] => none
  | u :: rest => if u.username = username then some u else find_user_by_username rest username

/-- find_one by id. -/
def find_user_by_id (db : UserDB) (uid : String) : Option User :=
  match db with
  | [] => none
  | u :: rest => if u.id = uid then some u else find_user_by_id rest uid

/-- update_one keyed by id: rewrite the first matching user document. -/
def updateUserById (db : UserDB) (uid : String) (f : User → User) : UserDB :=
  match db with
  | [] => []
  | u :: rest => if u.id = uid then f u :: rest else u :: updateUserById rest uid f

/-- get_password_hash: bcrypt via passlib in the source.  bcrypt salting and
slowness live outside this embedding; what the handlers rely on is that
verify_password succeeds exactly against the digest of the same plaintext,
so the digest is modelled as a pure injective tagging of the plaintext. -/
def get_password_hash (password : String) : String :=
  "bcrypt$" ++ password

/-- verify_password: check a plaintext against a stored digest. -/
def verify_password (plain hashed : String) : Bool :=
  hashed == get_password_hash plain

/-- SECRET_KEY from the source (the default value of the environment
variable). -/
def SECRET_KEY : String :=
  "devitappsecretkeyforauthentication123"

/-- ACCESS_TOKEN_EXPIRE_MINUTES from the source: 7 days in minutes. -/
def ACCESS_TOKEN_EXPIRE_MINUTES : Nat :=
  60 * 24 * 7

/-- A JWT as the source builds it: the sub claim, the optional refresh claim
(absent means false), the exp claim, and the key the token was signed with.
Signature checking is modelled as comparing the signing key. -/
structure Token where
  sub : Option String
  refresh : Bool
  exp : Nat
  key : String
deriving Repr, DecidableEq

/-- create_access_token: encode the claims with SECRET_KEY and an expiry of
now plus the requested lifetime (in seconds here). -/
def create_access_token (subject : String) (refresh : Bool) (now delta : Nat) : Token :=
  ⟨some subject, refresh, now + delta, SECRET_KEY⟩

/-- The serialized form of a token, the string the source feeds to
get_password_hash when persisting a refresh-token digest. -/
def token_plaintext (t : Token) : String :=
  t.sub.getD "" ++ "." ++ (if t.refresh then "refresh" else "access") ++ "."
    ++ toString t.exp ++ "." ++ t.key

/-- jwt.decode: the payload when the signature key matches and the token is
not expired, and a JWTError (none) otherwise. -/
def jwt_decode (t : Token) (now : Nat) : Option (Option String × Bool) :=
  if t.key = SECRET_KEY ∧ now < t.exp then some (t.sub, t.refresh) else none

/-- An HTTPException as the auth handlers raise it: status code, detail and
the optional WWW-Authenticate header. -/
structure HttpError where
  status_code : Nat
  detail : String
  www_authenticate : Option String
deriving Repr, DecidableEq

/-- The credentials_exception raised throughout get_current_user. -/
def credentials_exception : HttpError :=
  ⟨401, "Could not validate credentials", some "Bearer"⟩

/-- get_current_user: decode the token, require a sub claim, and resolve it
to a user document; every failure raises the same credentials_exception.
The decoded refresh claim is bound but never inspected. -/
def get_current_user (db : UserDB) (t : Token) (now : Nat) : Except HttpError User :=
  match jwt_decode t now with
  | none => .error credentials_exception
  | some (none, _) => .error credentials_exception
  | some (some uid, _) =>
    match find_user_by_id db uid with
    | none => .error credentials_exception
    | some u => .ok u

/-- Python's test for an at sign in the login identifier, written over the
character list of the string. -/
def hasAtSign (s : String) : Bool :=
  s.data.any (fun c => c = '@')

/-- The user lookup at the top of login: by email when the identifier
contains an at sign, by username otherwise. -/
def lookup_login_identifier (db : UserDB) (identifier : String) : Option User :=
  if hasAtSign identifier then get_user_by_email db identifier
  else find_user_by_username db identifier

/-- The 401 both failure branches of login raise. -/
def incorrect_credentials : HttpError :=
  ⟨401, "Incorrect username or password", some "Bearer"⟩

/-- The success payload of login. -/
structure TokenResponse where
  access_token : Token
  token_type : String
  user_id : String
  username : String
  refresh_token : Token
deriving Repr, DecidableEq

/-- login from src/backend/api.py: resolve the identifier, verify the
password (both failures raise the same 401), then mint a 7-day access token
and a 30-day refresh token (carrying refresh=true) and persist the bcrypt
digest of the refresh token on the user document. -/
def login (db : UserDB) (identifier password : String) (now : Nat) :
    UserDB × Except HttpError TokenResponse :=
  match lookup_login_identifier db identifier with
  | none => (db, .error incorrect_credentials)
  | some user =>
    if verify_password password user.password then
      let access := create_access_token user.id false now (ACCESS_TOKEN_EXPIRE_MINUTES * 60)
      let refresh := create_access_token user.id true now (30 * 24 * 60 * 60)
      (updateUserById db user.id
        (fun u => { u with refresh_token := some (get_password_hash (token_plaintext refresh)) }),
        .ok ⟨access, "bearer", user.id, user.username, refresh⟩)
    else
      (db, .error incorrect_credentials)

/-- logout from src/backend/api.py: unset the refresh_token field of the
current user's document. -/
def logout (db : UserDB) (current_user : User) : UserDB × String :=
  (updateUserById db current_user.id (fun u => { u with refresh_token := none }),
    "Successfully logged out")

/-- Modelled from the spec: the repository stores and revokes refresh-token
digests but ships no handler under src/ that redeems a refresh token for a
new access token.  Section 4.3 of the spec requires such an operation to
verify the token, require the refresh claim, and reject any token whose
digest does not match the one stored on the user record; every failure is
Unauthenticated. -/
def refresh_access_token (db : UserDB) (t : Token) (now : Nat) : Except HttpError Token :=
  match jwt_decode t now with
  | none => .error credentials_exception
  | some (none, _) => .error credentials_exception
  | some (some uid, isRefresh) =>
    if isRefresh then
      match find_user_by_id db uid with
      | none => .error credentials_exception
      | some user =>
        match user.refresh_token with
        | none => .error credentials_exception
        | some stored =>
          if verify_password (token_plaintext t) stored then
            .ok (create_access_token uid false now (ACCESS_TOKEN_EXPIRE_MINUTES * 60))
          else .error credentials_exception
    else .error credentials_exception

/-- The response of request_password_reset: the message, and the dev_only
object (reset code and email) that the found-user branch adds. -/
structure ResetRequestResponse where
  message : String
  dev_only : Option (Nat × String)
deriving Repr, DecidableEq

/-- request_password_reset from src/backend/api.py: the same message either
way, but a found user additionally gets a code drawn from
random.randint(100000, 999999) stored with a one-hour expiry, and the code
and email are echoed in the dev_only field of the response.  The random draw
is modelled by reducing an arbitrary seed into the inclusive range. -/
def request_password_reset (db : UserDB) (email : String) (now rand : Nat) :
    UserDB × ResetRequestResponse :=
  match get_user_by_email db email with
  | none => (db, ⟨"If the email exists, a reset code has been sent.", none⟩)
  | some user =>
    let reset_code := 100000 + rand % 900000
    let expiry := now + 3600
    (updateUserById db user.id
      (fun u => { u with reset_code := some reset_code, reset_code_expiry := some expiry }),
      ⟨"If the email exists, a reset code has been sent.", some (reset_code, email)⟩)

/-- confirm_password_reset from src/backend/api.py: resolve the email, then
require both reset fields to be present, the submitted code to match, and
the expiry not to have passed (in that order, each failure a distinct 400);
on success set the new password digest and unset both reset fields. -/
def confirm_password_reset (db : UserDB) (email : String) (code : Nat)
    (new_password : String) (now : Nat) : UserDB × Except HttpError String :=
  match get_user_by_email db email with
  | none => (db, .error ⟨400, "Invalid email or reset code", none⟩)
  | some user =>
    match user.reset_code, user.reset_code_expiry with
    | some stored, some expiry =>
      if stored ≠ code then
        (db, .error ⟨400, "Invalid reset code", none⟩)
      else if expiry < now then
        (db, .error ⟨400, "Reset code has expired", none⟩)
      else
        (updateUserById db user.id
          (fun u => { u with
            password := get_password_hash new_password,
            reset_code := none,
            reset_code_expiry := none }),
          .ok "Password has been reset successfully")
    | _, _ => (db, .error ⟨400, "No reset code requested or it has expired", none⟩)

/-- A finite sequence of vote calls: each entry is a post id, a user id and
a vote_type, applied in order through vote_post. -/
def runVotes (db : DB) (calls : List (String × String × String)) : DB :=
  match calls with
  | [] => db
  | c :: rest => runVotes (vote_post db c.1 c.2.1 c.2.2).1 rest

/-- The disjointness and no-duplicates part of the reactable invariant, over
the effective voter arrays. -/
def wfVoters (v : Voters) : Prop :=
  v.upvoters.Nodup ∧ v.downvoters.Nodup ∧ ∀ u ∈ v.upvoters, u ∉ v.downvoters

instance (v : Voters) : Decidable (wfVoters v) := by
  unfold wfVoters; exact inferInstance

/-- The full reactable invariant: well-formed voter arrays and counters that
equal the array lengths. -/
def Reactable.wf (r : Reactable) : Prop :=
  wfVoters (post_helper_voters r) ∧
    r.upvotes = ((post_helper_voters r).upvoters.length : Int) ∧
    r.downvotes = ((post_helper_voters r).downvoters.length : Int)

instance (r : Reactable) : Decidable r.wf := by
  unfold Reactable.wf; exact inferInstance

/-- The invariant over a whole collection, through lookup. -/
def DBwf (db : DB) : Prop :=
  ∀ id r, lookupDb db id = some r → r.wf

example :
    vote_post [("p", ⟨0, 0, some ⟨[], []⟩⟩)] "p" "a" "upvote" =
      ([("p", ⟨1, 0, some ⟨["a"], []⟩⟩)],
        .ok ⟨⟨1, 0, some ⟨["a"], []⟩⟩, none, none⟩) := by decide

example :
    vote_post [("p", ⟨0, 0, none⟩)] "p" "a" "downvote" =
      ([("p", ⟨0, 1, some ⟨[], ["a"]⟩⟩)],
        .ok ⟨⟨0, 1, some ⟨[], ["a"]⟩⟩, none, none⟩) := by decide

example :
    vote_post [("p", ⟨1, 0, some ⟨["a"], []⟩⟩)] "p" "a" "upvote" =
      ([("p", ⟨1, 0, some ⟨["a"], []⟩⟩)],
        .ok ⟨⟨1, 0, some ⟨["a"], []⟩⟩, some "Already upvoted", some "none"⟩) := by decide

example :
    vote_post [("p", ⟨1, 0, some ⟨["a"], []⟩⟩)] "q" "a" "upvote" =
      ([("p", ⟨1, 0, some ⟨["a"], []⟩⟩)], .error .notFound) := by decide

example :
    vote_post [("p", ⟨1, 0, some ⟨["a"], []⟩⟩)] "p" "a" "sideways" =
      ([("p", ⟨1, 0, some ⟨["a"], []⟩⟩)], .error .invalidArgument) := by decide

/-! ## Collection lemmas -/

theorem lookupDb_dbSet_found {db : DB} {id : String} {x : Reactable} (r : Reactable)
    (h : lookupDb db id = some x) : lookupDb (dbSet db id r) id = some r := by
  induction db with
  | nil => simp [lookupDb] at h
  | cons p rest ih =>
    obtain ⟨k, v⟩ := p
    by_cases hk : k = id
    · simp [lookupDb, dbSet, hk]
    · simp only [lookupDb, if_neg hk] at h
      simp only [dbSet, if_neg hk, lookupDb]
      exact ih h

theorem dbSet_not_found {db : DB} {id : String} (r : Reactable)
    (h : lookupDb db id = none) : dbSet db id r = db := by
  induction db with
  | nil => rfl
  | cons p rest ih =>
    obtain ⟨k, v⟩ := p
    by_cases hk : k = id
    · simp [lookupDb, hk] at h
    · simp only [lookupDb, if_neg hk] at h
      simp only [dbSet, if_neg hk, ih h]

theorem lookupDb_dbSet_ne {db : DB} {id id2 : String} (r : Reactable)
    (h : id2 ≠ id) : lookupDb (dbSet db id r) id2 = lookupDb db id2 := by
  induction db with
  | nil => rfl
  | cons p rest ih =>
    obtain ⟨k, v⟩ := p
    by_cases hk : k = id
    · subst hk
      have hne : ¬k = id2 := fun hh => h (hh.symm)
      simp only [dbSet, if_pos rfl, lookupDb, if_neg hne]
    · simp only [dbSet, if_neg hk, lookupDb]
      by_cases hk2 : k = id2
      · simp [hk2]
      · simp [hk2, ih]

theorem dbSet_dbSet {db : DB} {id : String} (r r2 : Reactable) :
    dbSet (dbSet db id r) id r2 = dbSet db id r2 := by
  induction db with
  | nil => rfl
  | cons p rest ih =>
    obtain ⟨k, v⟩ := p
    by_cases hk : k = id
    · simp [dbSet, hk]
    · simp [dbSet, hk, ih]

theorem dbSet_self {db : DB} {id : String} {r : Reactable}
    (h : lookupDb db id = some r) : dbSet db id r = db := by
  induction db with
  | nil => rfl
  | cons p rest ih =>
    obtain ⟨k, v⟩ := p
    by_cases hk : k = id
    · simp only [lookupDb, if_pos hk] at h
      cases h
      simp [dbSet, hk]
    · simp only [lookupDb, if_neg hk] at h
      simp [dbSet, hk, ih h]

theorem lookupDb_dbSet_cases {db : DB} {id id2 : String} {r x : Reactable}
    (h : lookupDb (dbSet db id r) id2 = some x) : x = r ∨ lookupDb db id2 = some x := by
  induction db with
  | nil => simp [dbSet, lookupDb] at h
  | cons p rest ih =>
    obtain ⟨k, v⟩ := p
    by_cases hk : k = id
    · subst hk
      by_cases hk2 : k = id2
      · simp only [dbSet, if_pos rfl, lookupDb, if_pos hk2] at h
        cases h
        exact Or.inl rfl
      · simp only [dbSet, if_pos rfl, lookupDb, if_neg hk2] at h
        simp only [lookupDb, if_neg hk2]
        exact Or.inr h
    · simp only [dbSet, if_neg hk, lookupDb] at h
      by_cases hk2 : k = id2
      · simp only [if_pos hk2] at h
        simp [lookupDb, hk2, h]
      · simp only [if_neg hk2] at h
        simp only [lookupDb, if_neg hk2]
        exact ih h

/-! ## Branch equations for vote_post -/

theorem vp_not_found {db : DB} {rid : String} (u vt : String)
    (h : lookupDb db rid = none) : vote_post db rid u vt = (db, .error .notFound) := by
  unfold vote_post
  rw [h]

theorem vp_voters_none {db : DB} {rid : String} {post : Reactable} (u vt : String)
    (h : lookupDb db rid = some post) (hv : post.voters = none) :
    vote_post db rid u vt =
      vote_post (dbSet db rid { post with voters := some ⟨[], []⟩ }) rid u vt := by
  have hl : lookupDb (dbSet db rid { post with voters := some ⟨[], []⟩ }) rid =
      some { post with voters := some ⟨[], []⟩ } := lookupDb_dbSet_found _ h
  conv_lhs => unfold vote_post
  conv_rhs => unfold vote_post
  rw [h, hl]
  simp [normalizeVoters, hv, dbSet_dbSet]

theorem vp_upvote_already {db : DB} {rid u : String} {post : Reactable} {up down : List String}
    (h : lookupDb db rid = some post) (hv : post.voters = some ⟨up, down⟩) (hm : u ∈ up) :
    vote_post db rid u "upvote" = (db, .ok ⟨post, some "Already upvoted", some "none"⟩) := by
  unfold vote_post
  rw [h]
  simp [normalizeVoters, hv, post_helper_voters, hm]

theorem vp_upvote_switch {db : DB} {rid u : String} {post : Reactable} {up down : List String}
    (h : lookupDb db rid = some post) (hv : post.voters = some ⟨up, down⟩)
    (h1 : u ∉ up) (h2 : u ∈ down) :
    vote_post db rid u "upvote" =
      (dbSet db rid ⟨post.upvotes + 1, post.downvotes - 1,
          some ⟨up ++ [u], down.filter (fun x => x ≠ u)⟩⟩,
        .ok ⟨⟨post.upvotes + 1, post.downvotes - 1,
          some ⟨up ++ [u], down.filter (fun x => x ≠ u)⟩⟩, none, none⟩) := by
  unfold vote_post
  rw [h]
  simp [normalizeVoters, hv, post_helper_voters, h1, h2]

theorem vp_upvote_add {db : DB} {rid u : String} {post : Reactable} {up down : List String}
    (h : lookupDb db rid = some post) (hv : post.voters = some ⟨up, down⟩)
    (h1 : u ∉ up) (h2 : u ∉ down) :
    vote_post db rid u "upvote" =
      (dbSet db rid ⟨post.upvotes + 1, post.downvotes, some ⟨up ++ [u], down⟩⟩,
        .ok ⟨⟨post.upvotes + 1, post.downvotes, some ⟨up ++ [u], down⟩⟩, none, none⟩) := by
  unfold vote_post
  rw [h]
  simp [normalizeVoters, hv, post_helper_voters, h1, h2]

theorem vp_downvote_already {db : DB} {rid u : String} {post : Reactable} {up down : List String}
    (h : lookupDb db rid = some post) (hv : post.voters = some ⟨up, down⟩) (hm : u ∈ down) :
    vote_post db rid u "downvote" = (db, .ok ⟨post, some "Already downvoted", some "none"⟩) := by
  unfold vote_post
  rw [h]
  simp [normalizeVoters, hv, post_helper_voters, hm]

theorem vp_downvote_switch {db : DB} {rid u : String} {post : Reactable} {up down : List String}
    (h : lookupDb db rid = some post) (hv : post.voters = some ⟨up, down⟩)
    (h1 : u ∉ down) (h2 : u ∈ up) :
    vote_post db rid u "downvote" =
      (dbSet db rid ⟨post.upvotes - 1, post.downvotes + 1,
          some ⟨up.filter (fun x => x ≠ u), down ++ [u]⟩⟩,
        .ok ⟨⟨post.upvotes - 1, post.downvotes + 1,
          some ⟨up.filter (fun x => x ≠ u), down ++ [u]⟩⟩, none, none⟩) := by
  unfold vote_post
  rw [h]
  simp [normalizeVoters, hv, post_helper_voters, h1, h2]

theorem vp_downvote_add {db : DB} {rid u : String} {post : Reactable} {up down : List String}
    (h : lookupDb db rid = some post) (hv : post.voters = some ⟨up, down⟩)
    (h1 : u ∉ down) (h2 : u ∉ up) :
    vote_post db rid u "downvote" =
      (dbSet db rid ⟨post.upvotes, post.downvotes + 1, some ⟨up, down ++ [u]⟩⟩,
        .ok ⟨⟨post.upvotes, post.downvotes + 1, some ⟨up, down ++ [u]⟩⟩, none, none⟩) := by
  unfold vote_post
  rw [h]
  simp [normalizeVoters, hv, post_helper_voters, h1, h2]

theorem vp_remove_upvote_miss {db : DB} {rid u : String} {post : Reactable} {up down : List String}
    (h : lookupDb db rid = some post) (hv : post.voters = some ⟨up, down⟩) (hm : u ∉ up) :
    vote_post db rid u "remove_upvote" = (db, .ok ⟨post, some "Not upvoted", some "none"⟩) := by
  unfold vote_post
  rw [h]
  simp [normalizeVoters, hv, post_helper_voters, hm]

theorem vp_remove_upvote_hit {db : DB} {rid u : String} {post : Reactable} {up down : List String}
    (h : lookupDb db rid = some post) (hv : post.voters = some ⟨up, down⟩) (hm : u ∈ up) :
    vote_post db rid u "remove_upvote" =
      (dbSet db rid ⟨post.upvotes - 1, post.downvotes,
          some ⟨up.filter (fun x => x ≠ u), down⟩⟩,
        .ok ⟨⟨post.upvotes - 1, post.downvotes,
          some ⟨up.filter (fun x => x ≠ u), down⟩⟩, none, none⟩) := by
  unfold vote_post
  rw [h]
  simp [normalizeVoters, hv, post_helper_voters, hm]

theorem vp_remove_downvote_miss {db : DB} {rid u : String} {post : Reactable} {up down : List String}
    (h : lookupDb db rid = some post) (hv : post.voters = some ⟨up, down⟩) (hm : u ∉ down) :
    vote_post db rid u "remove_downvote" = (db, .ok ⟨post, some "Not downvoted", some "none"⟩) := by
  unfold vote_post
  rw [h]
  simp [normalizeVoters, hv, post_helper_voters, hm]

theorem vp_remove_downvote_hit {db : DB} {rid u : String} {post : Reactable} {up down : List String}
    (h : lookupDb db rid = some post) (hv : post.voters = some ⟨up, down⟩) (hm : u ∈ down) :
    vote_post db rid u "remove_downvote" =
      (dbSet db rid ⟨post.upvotes, post.downvotes - 1,
          some ⟨up, down.filter (fun x => x ≠ u)⟩⟩,
        .ok ⟨⟨post.upvotes, post.downvotes - 1,
          some ⟨up, down.filter (fun x => x ≠ u)⟩⟩, none, none⟩) := by
  unfold vote_post
  rw [h]
  simp [normalizeVoters, hv, post_helper_voters, hm]

theorem vp_invalid {db : DB} {rid vt : String} {post : Reactable} {up down : List String}
    (u : String)
    (h : lookupDb db rid = some post) (hv : post.voters = some ⟨up, down⟩)
    (h1 : vt ≠ "upvote") (h2 : vt ≠ "downvote")
    (h3 : vt ≠ "remove_upvote") (h4 : vt ≠ "remove_downvote") :
    vote_post db rid u vt = (db, .error .invalidArgument) := by
  unfold vote_post
  rw [h]
  simp [normalizeVoters, hv, h1, h2, h3, h4]

/-! ## List lemmas for the voter arrays -/

theorem mem_filter_ne {l : List String} {x u : String} :
    x ∈ l.filter (fun y => y ≠ u) ↔ x ∈ l ∧ x ≠ u := by
  simp [List.mem_filter]

theorem filter_ne_of_not_mem {l : List String} {u : String} (h : u ∉ l) :
    l.filter (fun x => x ≠ u) = l := by
  induction l with
  | nil => rfl
  | cons a rest ih =>
    have ha : a ≠ u := by
      intro hh
      exact h (hh ▸ List.mem_cons_self a rest)
    have hr : u ∉ rest := fun hh => h (List.mem_cons_of_mem a hh)
    have hd : (fun x => decide (x ≠ u)) a = true := by simp [ha]
    rw [List.filter_cons, if_pos hd, ih hr]

theorem nodup_append_single {l : List String} {u : String}
    (h1 : u ∉ l) (h2 : l.Nodup) : (l ++ [u]).Nodup := by
  induction l with
  | nil => simp
  | cons a rest ih =>
    have ha : a ≠ u := by
      intro hh
      exact h1 (hh ▸ List.mem_cons_self a rest)
    have hr : u ∉ rest := fun hh => h1 (List.mem_cons_of_mem a hh)
    rcases List.nodup_cons.mp h2 with ⟨hna, hnd⟩
    refine List.nodup_cons.mpr ⟨?_, ih hr hnd⟩
    intro hh
    rcases List.mem_append.mp hh with hh | hh
    · exact hna hh
    · exact ha (List.mem_singleton.mp hh)

theorem nodup_filter_ne {l : List String} {u : String} (h : l.Nodup) :
    (l.filter (fun x => x ≠ u)).Nodup :=
  h.filter _

theorem length_filter_ne {l : List String} {u : String}
    (hn : l.Nodup) (hm : u ∈ l) :
    (l.filter (fun x => x ≠ u)).length + 1 = l.length := by
  induction l with
  | nil => cases hm
  | cons a rest ih =>
    rcases List.nodup_cons.mp hn with ⟨hna, hnd⟩
    by_cases ha : a = u
    · subst ha
      have hd : ¬((fun x => decide (x ≠ a)) a = true) := by simp
      rw [List.filter_cons, if_neg hd, filter_ne_of_not_mem hna]
      simp
    · have hm' : u ∈ rest := by
        rcases List.mem_cons.mp hm with hh | hh
        · exact absurd hh.symm ha
        · exact hh
      have hd : (fun x => decide (x ≠ u)) a = true := by simp [ha]
      rw [List.filter_cons, if_pos hd]
      have := ih hnd hm'
      simp only [List.length_cons]
      omega

/-! ## Invariant preservation for single transitions -/

theorem voters_wf {r : Reactable} {up down : List String}
    (hw : r.wf) (hv : r.voters = some ⟨up, down⟩) :
    up.Nodup ∧ down.Nodup ∧ (∀ u ∈ up, u ∉ down) ∧
      r.upvotes = (up.length : Int) ∧ r.downvotes = (down.length : Int) := by
  rcases hw with ⟨⟨h1, h2, h3⟩, h4, h5⟩
  simp only [post_helper_voters, hv, Option.getD_some] at h1 h2 h3 h4 h5
  exact ⟨h1, h2, h3, h4, h5⟩

theorem wf_mk {upv dnv : Int} {up down : List String}
    (h1 : up.Nodup) (h2 : down.Nodup) (h3 : ∀ u ∈ up, u ∉ down)
    (h4 : upv = (up.length : Int)) (h5 : dnv = (down.length : Int)) :
    Reactable.wf ⟨upv, dnv, some ⟨up, down⟩⟩ := by
  refine ⟨⟨h1, h2, h3⟩, h4, h5⟩

theorem wf_normalize {r : Reactable} (h : r.wf) : (normalizeVoters r).wf := by
  match hv : r.voters with
  | none =>
    rcases h with ⟨hw, h4, h5⟩
    simp only [post_helper_voters, hv, Option.getD_none] at hw h4 h5
    simp only [normalizeVoters, hv]
    exact wf_mk (by simp) (by simp) (by simp) (by simpa using h4) (by simpa using h5)
  | some v =>
    simpa [normalizeVoters, hv] using h

theorem wf_upvote_add {r : Reactable} {up down : List String} {u : String}
    (hw : r.wf) (hv : r.voters = some ⟨up, down⟩) (h1 : u ∉ up) (h2 : u ∉ down) :
    Reactable.wf ⟨r.upvotes + 1, r.downvotes, some ⟨up ++ [u], down⟩⟩ := by
  rcases voters_wf hw hv with ⟨w1, w2, w3, w4, w5⟩
  refine wf_mk (nodup_append_single h1 w1) w2 ?_ ?_ w5
  · intro x hx
    rcases List.mem_append.mp hx with hx | hx
    · exact w3 x hx
    · rw [List.mem_singleton.mp hx]; exact h2
  · rw [w4]; simp

theorem wf_upvote_switch {r : Reactable} {up down : List String} {u : String}
    (hw : r.wf) (hv : r.voters = some ⟨up, down⟩) (h1 : u ∉ up) (h2 : u ∈ down) :
    Reactable.wf ⟨r.upvotes + 1, r.downvotes - 1,
      some ⟨up ++ [u], down.filter (fun x => x ≠ u)⟩⟩ := by
  rcases voters_wf hw hv with ⟨w1, w2, w3, w4, w5⟩
  refine wf_mk (nodup_append_single h1 w1) (nodup_filter_ne w2) ?_ ?_ ?_
  · intro x hx
    rcases List.mem_append.mp hx with hx | hx
    · intro hc
      exact w3 x hx (mem_filter_ne.mp hc).1
    · rw [List.mem_singleton.mp hx]
      intro hc
      exact (mem_filter_ne.mp hc).2 rfl
  · rw [w4]; simp
  · rw [w5]
    have := length_filter_ne w2 h2
    omega

theorem wf_downvote_add {r : Reactable} {up down : List String} {u : String}
    (hw : r.wf) (hv : r.voters = some ⟨up, down⟩) (h1 : u ∉ down) (h2 : u ∉ up) :
    Reactable.wf ⟨r.upvotes, r.downvotes + 1, some ⟨up, down ++ [u]⟩⟩ := by
  rcases voters_wf hw hv with ⟨w1, w2, w3, w4, w5⟩
  refine wf_mk w1 (nodup_append_single h1 w2) ?_ w4 ?_
  · intro x hx hc
    rcases List.mem_append.mp hc with hc | hc
    · exact w3 x hx hc
    · rw [List.mem_singleton.mp hc] at hx
      exact h2 hx
  · rw [w5]; simp

theorem wf_downvote_switch {r : Reactable} {up down : List String} {u : String}
    (hw : r.wf) (hv : r.voters = some ⟨up, down⟩) (h1 : u ∉ down) (h2 : u ∈ up) :
    Reactable.wf ⟨r.upvotes - 1, r.downvotes + 1,
      some ⟨up.filter (fun x => x ≠ u), down ++ [u]⟩⟩ := by
  rcases voters_wf hw hv with ⟨w1, w2, w3, w4, w5⟩
  refine wf_mk (nodup_filter_ne w1) (nodup_append_single h1 w2) ?_ ?_ ?_
  · intro x hx
    rcases mem_filter_ne.mp hx with ⟨hx1, hx2⟩
    intro hc
    rcases List.mem_append.mp hc with hc | hc
    · exact w3 x hx1 hc
    · exact hx2 (List.mem_singleton.mp hc)
  · rw [w4]
    have := length_filter_ne w1 h2
    omega
  · rw [w5]; simp

theorem wf_remove_upvote {r : Reactable} {up down : List String} {u : String}
    (hw : r.wf) (hv : r.voters = some ⟨up, down⟩) (h1 : u ∈ up) :
    Reactable.wf ⟨r.upvotes - 1, r.downvotes,
      some ⟨up.filter (fun x => x ≠ u), down⟩⟩ := by
  rcases voters_wf hw hv with ⟨w1, w2, w3, w4, w5⟩
  refine wf_mk (nodup_filter_ne w1) w2 ?_ ?_ w5
  · intro x hx
    exact w3 x (mem_filter_ne.mp hx).1
  · rw [w4]
    have := length_filter_ne w1 h1
    omega

theorem wf_remove_downvote {r : Reactable} {up down : List String} {u : String}
    (hw : r.wf) (hv : r.voters = some ⟨up, down⟩) (h1 : u ∈ down) :
    Reactable.wf ⟨r.upvotes, r.downvotes - 1,
      some ⟨up, down.filter (fun x => x ≠ u)⟩⟩ := by
  rcases voters_wf hw hv with ⟨w1, w2, w3, w4, w5⟩
  refine wf_mk w1 (nodup_filter_ne w2) ?_ w4 ?_
  · intro x hx hc
    exact w3 x hx (mem_filter_ne.mp hc).1
  · rw [w5]
    have := length_filter_ne w2 h1
    omega

theorem DBwf_dbSet {db : DB} {id : String} {r : Reactable}
    (h : DBwf db) (hr : r.wf) : DBwf (dbSet db id r) := by
  intro id2 x hx
  rcases lookupDb_dbSet_cases hx with rfl | hx2
  · exact hr
  · exact h id2 x hx2

theorem lookupDb_mem {db : DB} {id : String} {r : Reactable}
    (h : lookupDb db id = some r) : (id, r) ∈ db := by
  induction db with
  | nil => cases h
  | cons p rest ih =>
    obtain ⟨k, v⟩ := p
    by_cases hk : k = id
    · subst hk
      simp only [lookupDb, if_pos rfl] at h
      cases h
      exact List.mem_cons_self _ _
    · simp only [lookupDb, if_neg hk] at h
      exact List.mem_cons_of_mem _ (ih h)

theorem DBwf_of_all {db : DB} (h : ∀ p ∈ db, Reactable.wf p.2) : DBwf db :=
  fun id r hr => h (id, r) (lookupDb_mem hr)

theorem DBwf_vote_post_some {db : DB} {rid : String} {post : Reactable}
    {up down : List String} (u vt : String)
    (h : DBwf db) (hl : lookupDb db rid = some post)
    (hv : post.voters = some ⟨up, down⟩) :
    DBwf (vote_post db rid u vt).1 := by
  have hw := h rid post hl
  by_cases h1 : vt = "upvote"
  · subst h1
    by_cases hm : u ∈ up
    · rw [vp_upvote_already hl hv hm]; exact h
    · by_cases hd : u ∈ down
      · rw [vp_upvote_switch hl hv hm hd]
        exact DBwf_dbSet h (wf_upvote_switch hw hv hm hd)
      · rw [vp_upvote_add hl hv hm hd]
        exact DBwf_dbSet h (wf_upvote_add hw hv hm hd)
  by_cases h2 : vt = "downvote"
  · subst h2
    by_cases hm : u ∈ down
    · rw [vp_downvote_already hl hv hm]; exact h
    · by_cases hd : u ∈ up
      · rw [vp_downvote_switch hl hv hm hd]
        exact DBwf_dbSet h (wf_downvote_switch hw hv hm hd)
      · rw [vp_downvote_add hl hv hm hd]
        exact DBwf_dbSet h (wf_downvote_add hw hv hm hd)
  by_cases h3 : vt = "remove_upvote"
  · subst h3
    by_cases hm : u ∈ up
    · rw [vp_remove_upvote_hit hl hv hm]
      exact DBwf_dbSet h (wf_remove_upvote hw hv hm)
    · rw [vp_remove_upvote_miss hl hv hm]; exact h
  by_cases h4 : vt = "remove_downvote"
  · subst h4
    by_cases hm : u ∈ down
    · rw [vp_remove_downvote_hit hl hv hm]
      exact DBwf_dbSet h (wf_remove_downvote hw hv hm)
    · rw [vp_remove_downvote_miss hl hv hm]; exact h
  rw [vp_invalid u hl hv h1 h2 h3 h4]
  exact h

theorem DBwf_vote_post {db : DB} (rid u vt : String) (h : DBwf db) :
    DBwf (vote_post db rid u vt).1 := by
  cases hl : lookupDb db rid with
  | none => rw [vp_not_found u vt hl]; exact h
  | some post =>
    cases hv : post.voters with
    | some v =>
      obtain ⟨up, down⟩ := v
      exact DBwf_vote_post_some u vt h hl hv
    | none =>
      rw [vp_voters_none u vt hl hv]
      have hw := h rid post hl
      have hp : ({ post with voters := some ⟨[], []⟩ } : Reactable).wf := by
        have hn := wf_normalize hw
        simpa [normalizeVoters, hv] using hn
      exact DBwf_vote_post_some u vt (DBwf_dbSet h hp) (lookupDb_dbSet_found _ hl) rfl

theorem DBwf_runVotes {db : DB} (calls : List (String × String × String))
    (h : DBwf db) : DBwf (runVotes db calls) := by
  induction calls generalizing db with
  | nil => exact h
  | cons c rest ih =>
    show DBwf (runVotes (vote_post db c.1 c.2.1 c.2.2).1 rest)
    exact ih (DBwf_vote_post c.1 c.2.1 c.2.2 h)

/-! ## Claim theorems for the vote subsystem -/

/-- C1 (amended): vote_post and vote_comment follow the transition table.
A missing reactable fails with the NotFound kind; an unrecognised vote_type
fails with the InvalidArgument kind; an absent voters field is first
initialised to empty sets; and for present voter sets: an upvote by a user
already in upvoters is a no-op with action "none" and message
"Already upvoted" (the source capitalises the message, which is the one
amendment to the claim), an upvote by a downvoter moves the user across and
adjusts both counters, an upvote by a fresh user appends to upvoters and
increments upvotes, and downvote, remove_upvote and remove_downvote behave
symmetrically (messages "Already downvoted", "Not upvoted", "Not downvoted"). -/
theorem vote_transition_table :
    vote_comment = vote_post ∧
    (∀ db rid u vt, lookupDb db rid = none →
      vote_post db rid u vt = (db, Except.error VoteError.notFound)) ∧
    (∀ db rid u vt (post : Reactable), lookupDb db rid = some post →
      post.voters = none →
      vote_post db rid u vt =
        vote_post (dbSet db rid { post with voters := some ⟨[], []⟩ }) rid u vt) ∧
    (∀ db rid u (post : Reactable) (up down : List String),
      lookupDb db rid = some post → post.voters = some ⟨up, down⟩ →
      (∀ vt, vt ∉ (["upvote", "downvote", "remove_upvote", "remove_downvote"] : List String) →
        vote_post db rid u vt = (db, Except.error VoteError.invalidArgument)) ∧
      (u ∈ up → vote_post db rid u "upvote" =
        (db, Except.ok ⟨post, some "Already upvoted", some "none"⟩)) ∧
      (u ∉ up → u ∈ down → vote_post db rid u "upvote" =
        (dbSet db rid ⟨post.upvotes + 1, post.downvotes - 1,
            some ⟨up ++ [u], down.filter (fun x => x ≠ u)⟩⟩,
          Except.ok ⟨⟨post.upvotes + 1, post.downvotes - 1,
            some ⟨up ++ [u], down.filter (fun x => x ≠ u)⟩⟩, none, none⟩)) ∧
      (u ∉ up → u ∉ down → vote_post db rid u "upvote" =
        (dbSet db rid ⟨post.upvotes + 1, post.downvotes, some ⟨up ++ [u], down⟩⟩,
          Except.ok ⟨⟨post.upvotes + 1, post.downvotes, some ⟨up ++ [u], down⟩⟩, none, none⟩)) ∧
      (u ∈ down → vote_post db rid u "downvote" =
        (db, Except.ok ⟨post, some "Already downvoted", some "none"⟩)) ∧
      (u ∉ down → u ∈ up → vote_post db rid u "downvote" =
        (dbSet db rid ⟨post.upvotes - 1, post.downvotes + 1,
            some ⟨up.filter (fun x => x ≠ u), down ++ [u]⟩⟩,
          Except.ok ⟨⟨post.upvotes - 1, post.downvotes + 1,
            some ⟨up.filter (fun x => x ≠ u), down ++ [u]⟩⟩, none, none⟩)) ∧
      (u ∉ down → u ∉ up → vote_post db rid u "downvote" =
        (dbSet db rid ⟨post.upvotes, post.downvotes + 1, some ⟨up, down ++ [u]⟩⟩,
          Except.ok ⟨⟨post.upvotes, post.downvotes + 1, some ⟨up, down ++ [u]⟩⟩, none, none⟩)) ∧
      (u ∉ up → vote_post db rid u "remove_upvote" =
        (db, Except.ok ⟨post, some "Not upvoted", some "none"⟩)) ∧
      (u ∈ up → vote_post db rid u "remove_upvote" =
        (dbSet db rid ⟨post.upvotes - 1, post.downvotes,
            some ⟨up.filter (fun x => x ≠ u), down⟩⟩,
          Except.ok ⟨⟨post.upvotes - 1, post.downvotes,
            some ⟨up.filter (fun x => x ≠ u), down⟩⟩, none, none⟩)) ∧
      (u ∉ down → vote_post db rid u "remove_downvote" =
        (db, Except.ok ⟨post, some "Not downvoted", some "none"⟩)) ∧
      (u ∈ down → vote_post db rid u "remove_downvote" =
        (dbSet db rid ⟨post.upvotes, post.downvotes - 1,
            some ⟨up, down.filter (fun x => x ≠ u)⟩⟩,
          Except.ok ⟨⟨post.upvotes, post.downvotes - 1,
            some ⟨up, down.filter (fun x => x ≠ u)⟩⟩, none, none⟩))) := by
  refine ⟨rfl, ?_, ?_, ?_⟩
  · intro db rid u vt h
    exact vp_not_found u vt h
  · intro db rid u vt post hl hv
    exact vp_voters_none u vt hl hv
  · intro db rid u post up down hl hv
    refine ⟨?_, ?_, ?_, ?_, ?_, ?_, ?_, ?_, ?_, ?_, ?_⟩
    · intro vt hvt
      have h1 : vt ≠ "upvote" := fun he => hvt (by rw [he]; decide)
      have h2 : vt ≠ "downvote" := fun he => hvt (by rw [he]; decide)
      have h3 : vt ≠ "remove_upvote" := fun he => hvt (by rw [he]; decide)
      have h4 : vt ≠ "remove_downvote" := fun he => hvt (by rw [he]; decide)
      exact vp_invalid u hl hv h1 h2 h3 h4
    · intro hm; exact vp_upvote_already hl hv hm
    · intro h1 h2; exact vp_upvote_switch hl hv h1 h2
    · intro h1 h2; exact vp_upvote_add hl hv h1 h2
    · intro hm; exact vp_downvote_already hl hv hm
    · intro h1 h2; exact vp_downvote_switch hl hv h1 h2
    · intro h1 h2; exact vp_downvote_add hl hv h1 h2
    · intro hm; exact vp_remove_upvote_miss hl hv hm
    · intro hm; exact vp_remove_upvote_hit hl hv hm
    · intro hm; exact vp_remove_downvote_miss hl hv hm
    · intro hm; exact vp_remove_downvote_hit hl hv hm

/-- C1 witness: the transition table applied at a concrete collection, in
the switch case (user b moves from downvoters to upvoters). -/
theorem vote_transition_table_witness :
    vote_post [("p", ⟨1, 1, some ⟨["a"], ["b"]⟩⟩)] "p" "b" "upvote" =
      ([("p", ⟨2, 0, some ⟨["a", "b"], []⟩⟩)],
        Except.ok ⟨⟨2, 0, some ⟨["a", "b"], []⟩⟩, none, none⟩) := by
  have h := (vote_transition_table.2.2.2 [("p", ⟨1, 1, some ⟨["a"], ["b"]⟩⟩)] "p" "b"
    ⟨1, 1, some ⟨["a"], ["b"]⟩⟩ ["a"] ["b"] (by decide) rfl).2.2.1 (by decide) (by decide)
  exact h.trans (by decide)

/-- C1 counterexample: the claim spells the no-op message "already upvoted",
but the source returns "Already upvoted". -/
theorem vote_transition_table_cex :
    (vote_post [("p", ⟨1, 0, some ⟨["a"], []⟩⟩)] "p" "a" "upvote").2 =
      Except.ok ⟨⟨1, 0, some ⟨["a"], []⟩⟩, some "Already upvoted", some "none"⟩ ∧
    (vote_post [("p", ⟨1, 0, some ⟨["a"], []⟩⟩)] "p" "a" "upvote").2 ≠
      Except.ok ⟨⟨1, 0, some ⟨["a"], []⟩⟩, some "already upvoted", some "none"⟩ := by
  exact ⟨by decide, by decide⟩

/-- C2: starting from a collection in which every stored reactable satisfies
the invariant, after any finite sequence of vote_post calls every reachable
reactable still has duplicate-free, disjoint voter sets, counters equal to
the set sizes, and hence non-negative counters. -/
theorem vote_invariant_preserved (db : DB) (calls : List (String × String × String))
    (h : ∀ p ∈ db, Reactable.wf p.2) :
    ∀ id r, lookupDb (runVotes db calls) id = some r →
      Reactable.wf r ∧
      (∀ u ∈ (post_helper_voters r).upvoters, u ∉ (post_helper_voters r).downvoters) ∧
      r.upvotes = ((post_helper_voters r).upvoters.length : Int) ∧
      r.downvotes = ((post_helper_voters r).downvoters.length : Int) ∧
      0 ≤ r.upvotes ∧ 0 ≤ r.downvotes := by
  intro id r hr
  have hw := DBwf_runVotes calls (DBwf_of_all h) id r hr
  rcases hw with ⟨⟨n1, n2, n3⟩, h4, h5⟩
  refine ⟨⟨⟨n1, n2, n3⟩, h4, h5⟩, n3, h4, h5, ?_, ?_⟩
  · rw [h4]; exact Int.natCast_nonneg _
  · rw [h5]; exact Int.natCast_nonneg _

/-- C2 witness: a fresh post, one upvote by b and one downvote by a. -/
theorem vote_invariant_preserved_witness :
    Reactable.wf ⟨1, 1, some ⟨["b"], ["a"]⟩⟩ ∧
    (∀ u ∈ (post_helper_voters ⟨1, 1, some ⟨["b"], ["a"]⟩⟩).upvoters,
      u ∉ (post_helper_voters ⟨1, 1, some ⟨["b"], ["a"]⟩⟩).downvoters) ∧
    (⟨1, 1, some ⟨["b"], ["a"]⟩⟩ : Reactable).upvotes =
      ((post_helper_voters ⟨1, 1, some ⟨["b"], ["a"]⟩⟩).upvoters.length : Int) ∧
    (⟨1, 1, some ⟨["b"], ["a"]⟩⟩ : Reactable).downvotes =
      ((post_helper_voters ⟨1, 1, some ⟨["b"], ["a"]⟩⟩).downvoters.length : Int) ∧
    0 ≤ (⟨1, 1, some ⟨["b"], ["a"]⟩⟩ : Reactable).upvotes ∧
    0 ≤ (⟨1, 1, some ⟨["b"], ["a"]⟩⟩ : Reactable).downvotes :=
  vote_invariant_preserved [("p", ⟨0, 0, none⟩)]
    [("p", "b", "upvote"), ("p", "a", "downvote")] (by decide)
    "p" ⟨1, 1, some ⟨["b"], ["a"]⟩⟩ (by decide)

theorem vote_idempotent_aux {db : DB} {rid u : String} {post : Reactable}
    {up down : List String} {vt : String}
    (hl : lookupDb db rid = some post) (hv : post.voters = some ⟨up, down⟩)
    (hvt : vt = "upvote" ∨ vt = "downvote" ∨ vt = "remove_upvote" ∨ vt = "remove_downvote") :
    ∃ r1 m, lookupDb (vote_post db rid u vt).1 rid = some r1 ∧
      vote_post (vote_post db rid u vt).1 rid u vt =
        ((vote_post db rid u vt).1, Except.ok ⟨r1, some m, some "none"⟩) := by
  rcases hvt with rfl | rfl | rfl | rfl
  · by_cases hm : u ∈ up
    · rw [vp_upvote_already hl hv hm]
      exact ⟨post, "Already upvoted", hl, vp_upvote_already hl hv hm⟩
    · by_cases hd : u ∈ down
      · rw [vp_upvote_switch hl hv hm hd]
        have hl2 := lookupDb_dbSet_found
          (⟨post.upvotes + 1, post.downvotes - 1,
            some ⟨up ++ [u], down.filter (fun x => x ≠ u)⟩⟩ : Reactable) hl
        have hm2 : u ∈ up ++ [u] := by simp
        exact ⟨_, "Already upvoted", hl2, vp_upvote_already hl2 rfl hm2⟩
      · rw [vp_upvote_add hl hv hm hd]
        have hl2 := lookupDb_dbSet_found
          (⟨post.upvotes + 1, post.downvotes, some ⟨up ++ [u], down⟩⟩ : Reactable) hl
        have hm2 : u ∈ up ++ [u] := by simp
        exact ⟨_, "Already upvoted", hl2, vp_upvote_already hl2 rfl hm2⟩
  · by_cases hm : u ∈ down
    · rw [vp_downvote_already hl hv hm]
      exact ⟨post, "Already downvoted", hl, vp_downvote_already hl hv hm⟩
    · by_cases hd : u ∈ up
      · rw [vp_downvote_switch hl hv hm hd]
        have hl2 := lookupDb_dbSet_found
          (⟨post.upvotes - 1, post.downvotes + 1,
            some ⟨up.filter (fun x => x ≠ u), down ++ [u]⟩⟩ : Reactable) hl
        have hm2 : u ∈ down ++ [u] := by simp
        exact ⟨_, "Already downvoted", hl2, vp_downvote_already hl2 rfl hm2⟩
      · rw [vp_downvote_add hl hv hm hd]
        have hl2 := lookupDb_dbSet_found
          (⟨post.upvotes, post.downvotes + 1, some ⟨up, down ++ [u]⟩⟩ : Reactable) hl
        have hm2 : u ∈ down ++ [u] := by simp
        exact ⟨_, "Already downvoted", hl2, vp_downvote_already hl2 rfl hm2⟩
  · by_cases hm : u ∈ up
    · rw [vp_remove_upvote_hit hl hv hm]
      have hl2 := lookupDb_dbSet_found
        (⟨post.upvotes - 1, post.downvotes,
          some ⟨up.filter (fun x => x ≠ u), down⟩⟩ : Reactable) hl
      have hm2 : u ∉ up.filter (fun x => x ≠ u) := by
        intro hc
        exact (mem_filter_ne.mp hc).2 rfl
      exact ⟨_, "Not upvoted", hl2, vp_remove_upvote_miss hl2 rfl hm2⟩
    · rw [vp_remove_upvote_miss hl hv hm]
      exact ⟨post, "Not upvoted", hl, vp_remove_upvote_miss hl hv hm⟩
  · by_cases hm : u ∈ down
    · rw [vp_remove_downvote_hit hl hv hm]
      have hl2 := lookupDb_dbSet_found
        (⟨post.upvotes, post.downvotes - 1,
          some ⟨up, down.filter (fun x => x ≠ u)⟩⟩ : Reactable) hl
      have hm2 : u ∉ down.filter (fun x => x ≠ u) := by
        intro hc
        exact (mem_filter_ne.mp hc).2 rfl
      exact ⟨_, "Not downvoted", hl2, vp_remove_downvote_miss hl2 rfl hm2⟩
    · rw [vp_remove_downvote_miss hl hv hm]
      exact ⟨post, "Not downvoted", hl, vp_remove_downvote_miss hl hv hm⟩

/-- C9: for an existing reactable and one of the four recognised vote types,
repeating the call leaves the collection exactly as the first call left it
and answers with action "none": the record the second call reports is the
stored one, unchanged. -/
theorem vote_idempotent (db : DB) (rid u vt : String) (r : Reactable)
    (h : lookupDb db rid = some r)
    (hvt : vt = "upvote" ∨ vt = "downvote" ∨ vt = "remove_upvote" ∨ vt = "remove_downvote") :
    ∃ r1 m, lookupDb (vote_post db rid u vt).1 rid = some r1 ∧
      vote_post (vote_post db rid u vt).1 rid u vt =
        ((vote_post db rid u vt).1, Except.ok ⟨r1, some m, some "none"⟩) := by
  cases hv : r.voters with
  | some v =>
    obtain ⟨up, down⟩ := v
    exact vote_idempotent_aux h hv hvt
  | none =>
    rw [vp_voters_none u vt h hv]
    exact vote_idempotent_aux (lookupDb_dbSet_found _ h) rfl hvt

/-- C9 witness: upvoting a fresh post twice. -/
theorem vote_idempotent_witness :
    ∃ r1 m, lookupDb (vote_post [("p", ⟨0, 0, none⟩)] "p" "a" "upvote").1 "p" = some r1 ∧
      vote_post (vote_post [("p", ⟨0, 0, none⟩)] "p" "a" "upvote").1 "p" "a" "upvote" =
        ((vote_post [("p", ⟨0, 0, none⟩)] "p" "a" "upvote").1,
          Except.ok ⟨r1, some m, some "none"⟩) :=
  vote_idempotent [("p", ⟨0, 0, none⟩)] "p" "a" "upvote" ⟨0, 0, none⟩ (by decide) (Or.inl rfl)

/-- C4 (amended): in an invariant-satisfying state where the user is in
neither voter set and the voters field is present, an upvote followed by
remove_upvote restores the collection exactly, the pre-upvote reactable
included. -/
theorem upvote_remove_roundtrip (db : DB) (rid u : String) (r : Reactable)
    (up down : List String)
    (hw : Reactable.wf r)
    (h : lookupDb db rid = some r) (hv : r.voters = some ⟨up, down⟩)
    (h1 : u ∉ up) (h2 : u ∉ down) :
    (vote_post (vote_post db rid u "upvote").1 rid u "remove_upvote").1 = db := by
  rw [vp_upvote_add h hv h1 h2]
  have hl2 := lookupDb_dbSet_found
    (⟨r.upvotes + 1, r.downvotes, some ⟨up ++ [u], down⟩⟩ : Reactable) h
  have hm : u ∈ up ++ [u] := by simp
  rw [vp_remove_upvote_hit hl2 rfl hm]
  show dbSet (dbSet db rid _) rid _ = db
  rw [dbSet_dbSet]
  have hfilter : (up ++ [u]).filter (fun x => x ≠ u) = up := by
    rw [List.filter_append, filter_ne_of_not_mem h1]
    simp
  have hR : (⟨r.upvotes + 1 - 1, r.downvotes,
      some ⟨(up ++ [u]).filter (fun x => x ≠ u), down⟩⟩ : Reactable) = r := by
    obtain ⟨a, b, c⟩ := r
    simp only at hv
    subst hv
    simp only [hfilter]
    simp
  rw [hR]
  exact dbSet_self h

/-- C4 witness: user a upvotes and un-upvotes a post upvoted only by b. -/
theorem upvote_remove_roundtrip_witness :
    (vote_post (vote_post [("p", ⟨1, 0, some ⟨["b"], []⟩⟩)] "p" "a" "upvote").1
      "p" "a" "remove_upvote").1 = [("p", ⟨1, 0, some ⟨["b"], []⟩⟩)] :=
  upvote_remove_roundtrip [("p", ⟨1, 0, some ⟨["b"], []⟩⟩)] "p" "a"
    ⟨1, 0, some ⟨["b"], []⟩⟩ ["b"] [] (by decide) (by decide) rfl (by decide) (by decide)

/-- C4 counterexample: in an invariant-satisfying state where user a already
downvoted, upvote followed by remove_upvote does not restore the pre-upvote
state (the downvote is lost). -/
theorem upvote_remove_roundtrip_cex :
    Reactable.wf ⟨0, 1, some ⟨[], ["a"]⟩⟩ ∧
    (vote_post (vote_post [("p", ⟨0, 1, some ⟨[], ["a"]⟩⟩)] "p" "a" "upvote").1
      "p" "a" "remove_upvote").1 ≠ [("p", ⟨0, 1, some ⟨[], ["a"]⟩⟩)] := by
  exact ⟨by decide, by decide⟩

theorem lookupDb_append {db : DB} {id : String} (tail : DB)
    (h : lookupDb db id = none) : lookupDb (db ++ tail) id = lookupDb tail id := by
  induction db with
  | nil => rfl
  | cons p rest ih =>
    obtain ⟨k, v⟩ := p
    by_cases hk : k = id
    · simp [lookupDb, hk] at h
    · simp only [lookupDb, if_neg hk] at h
      simp only [List.cons_append, lookupDb, if_neg hk]
      exact ih h

/-- C8: every reactable is inserted with zero counters and without a voters
field, whose effective value reads as empty voter sets; and a vote call on a
record whose voters field is absent behaves exactly like the call on the
collection where that record has been migrated to explicit empty voter sets,
the form normalizeVoters gives it, so the transition always evaluates
against well-defined voter sets. -/
theorem create_zero_and_lazy_init :
    new_post_doc.upvotes = 0 ∧ new_post_doc.downvotes = 0 ∧
    new_post_doc.voters = none ∧
    new_comment_doc.upvotes = 0 ∧ new_comment_doc.downvotes = 0 ∧
    new_comment_doc.voters = none ∧
    post_helper_voters new_post_doc = ⟨[], []⟩ ∧
    post_helper_voters new_comment_doc = ⟨[], []⟩ ∧
    (∀ db rid, lookupDb db rid = none →
      lookupDb (create_post db rid) rid = some new_post_doc) ∧
    (∀ db cid, lookupDb db cid = none →
      lookupDb (create_comment db cid) cid = some new_comment_doc) ∧
    (∀ db rid u vt (post : Reactable), lookupDb db rid = some post →
      post.voters = none →
      normalizeVoters post = { post with voters := some ⟨[], []⟩ } ∧
      vote_post db rid u vt =
        vote_post (dbSet db rid { post with voters := some ⟨[], []⟩ }) rid u vt) := by
  refine ⟨rfl, rfl, rfl, rfl, rfl, rfl, rfl, rfl, ?_, ?_, ?_⟩
  · intro db rid h
    unfold create_post
    rw [lookupDb_append _ h]
    simp [lookupDb]
  · intro db cid h
    unfold create_comment
    rw [lookupDb_append _ h]
    simp [lookupDb]
  · intro db rid u vt post hl hv
    exact ⟨by simp [normalizeVoters, hv], vp_voters_none u vt hl hv⟩

/-- C8 witness: a freshly inserted post resolves to the zero document, and a
vote on a voters-less record equals the vote on the migrated record. -/
theorem create_zero_and_lazy_init_witness :
    lookupDb (create_post [] "p") "p" = some new_post_doc ∧
    vote_post [("p", ⟨0, 0, none⟩)] "p" "a" "upvote" =
      vote_post (dbSet [("p", ⟨0, 0, none⟩)] "p" ⟨0, 0, some ⟨[], []⟩⟩) "p" "a" "upvote" := by
  refine ⟨create_zero_and_lazy_init.2.2.2.2.2.2.2.2.1 [] "p" rfl, ?_⟩
  exact (create_zero_and_lazy_init.2.2.2.2.2.2.2.2.2.2 [("p", ⟨0, 0, none⟩)] "p" "a" "upvote"
    ⟨0, 0, none⟩ (by decide) rfl).2

/-! ## Claim theorems for the authentication subsystem -/

theorem find_updateUserById_self {db : UserDB} {uid : String} {u : User}
    (f : User → User) (h : find_user_by_id db uid = some u)
    (hf : (f u).id = u.id) :
    find_user_by_id (updateUserById db uid f) uid = some (f u) := by
  induction db with
  | nil => cases h
  | cons v rest ih =>
    by_cases hk : v.id = uid
    · simp only [find_user_by_id, if_pos hk] at h
      cases h
      simp only [updateUserById, if_pos hk, find_user_by_id]
      rw [if_pos (hf.trans hk)]
    · simp only [find_user_by_id, if_neg hk] at h
      simp only [updateUserById, if_neg hk, find_user_by_id, if_neg hk]
      exact ih h

/-- C5: a login whose identifier resolves to no user and a login whose
identifier resolves to a user but whose password fails verification raise
the very same 401 error (status, detail and header all equal), and neither
changes the users collection. -/
theorem login_uniform_unauthenticated (db : UserDB) (id1 p1 id2 p2 : String)
    (now1 now2 : Nat) (u : User)
    (h1 : lookup_login_identifier db id1 = none)
    (h2 : lookup_login_identifier db id2 = some u)
    (h3 : verify_password p2 u.password = false) :
    (login db id1 p1 now1).2 = Except.error incorrect_credentials ∧
    (login db id2 p2 now2).2 = Except.error incorrect_credentials ∧
    (login db id1 p1 now1).2 = (login db id2 p2 now2).2 ∧
    (login db id1 p1 now1).1 = db ∧ (login db id2 p2 now2).1 = db := by
  have e1 : login db id1 p1 now1 = (db, Except.error incorrect_credentials) := by
    unfold login
    rw [h1]
  have e2 : login db id2 p2 now2 = (db, Except.error incorrect_credentials) := by
    unfold login
    rw [h2]
    simp [h3]
  rw [e1, e2]
  exact ⟨rfl, rfl, rfl, rfl, rfl⟩

/-- C5 witness: the spec scenario, a wrong password for alice against a
lookup miss for an unknown email. -/
theorem login_uniform_unauthenticated_witness :
    (login [⟨"1", "alice", "alice@x.com", get_password_hash "right", 0, "",
        none, none, none⟩] "doesnotexist@x.com" "whatever" 0).2 =
      Except.error incorrect_credentials ∧
    (login [⟨"1", "alice", "alice@x.com", get_password_hash "right", 0, "",
        none, none, none⟩] "alice@x.com" "wrong" 0).2 =
      Except.error incorrect_credentials ∧
    (login [⟨"1", "alice", "alice@x.com", get_password_hash "right", 0, "",
        none, none, none⟩] "doesnotexist@x.com" "whatever" 0).2 =
      (login [⟨"1", "alice", "alice@x.com", get_password_hash "right", 0, "",
        none, none, none⟩] "alice@x.com" "wrong" 0).2 ∧
    (login [⟨"1", "alice", "alice@x.com", get_password_hash "right", 0, "",
        none, none, none⟩] "doesnotexist@x.com" "whatever" 0).1 =
      [⟨"1", "alice", "alice@x.com", get_password_hash "right", 0, "", none, none, none⟩] ∧
    (login [⟨"1", "alice", "alice@x.com", get_password_hash "right", 0, "",
        none, none, none⟩] "alice@x.com" "wrong" 0).1 =
      [⟨"1", "alice", "alice@x.com", get_password_hash "right", 0, "", none, none, none⟩] :=
  login_uniform_unauthenticated _ "doesnotexist@x.com" "whatever" "alice@x.com" "wrong" 0 0
    ⟨"1", "alice", "alice@x.com", get_password_hash "right", 0, "", none, none, none⟩
    (by decide) (by decide) (by decide)

/-- C6: with a user resolved by email, confirm_password_reset fails with a
400 and leaves the collection (hence the stored password hash) unchanged
when a reset field is missing, when the submitted code mismatches, or when
the expiry has passed; when everything checks out it replaces the password
digest and unsets both reset fields. -/
theorem confirm_reset_cases (db : UserDB) (email : String) (code : Nat)
    (newPassword : String) (now : Nat) (user : User)
    (h : get_user_by_email db email = some user) :
    ((user.reset_code = none ∨ user.reset_code_expiry = none) →
      confirm_password_reset db email code newPassword now =
        (db, Except.error ⟨400, "No reset code requested or it has expired", none⟩)) ∧
    (∀ stored expiry, user.reset_code = some stored →
      user.reset_code_expiry = some expiry →
      (stored ≠ code →
        confirm_password_reset db email code newPassword now =
          (db, Except.error ⟨400, "Invalid reset code", none⟩)) ∧
      (stored = code → expiry < now →
        confirm_password_reset db email code newPassword now =
          (db, Except.error ⟨400, "Reset code has expired", none⟩)) ∧
      (stored = code → ¬expiry < now →
        confirm_password_reset db email code newPassword now =
          (updateUserById db user.id (fun u => { u with
              password := get_password_hash newPassword,
              reset_code := none,
              reset_code_expiry := none }),
            Except.ok "Password has been reset successfully"))) := by
  constructor
  · intro hcase
    rcases hc : user.reset_code with _ | stored
    · simp [confirm_password_reset, h, hc]
    · rcases he : user.reset_code_expiry with _ | expiry
      · simp [confirm_password_reset, h, hc, he]
      · rcases hcase with hn | hn
        · rw [hc] at hn; cases hn
        · rw [he] at hn; cases hn
  · intro stored expiry hs he
    refine ⟨?_, ?_, ?_⟩
    · intro hne
      simp [confirm_password_reset, h, hs, he, hne]
    · intro heq hlt
      subst heq
      simp [confirm_password_reset, h, hs, he, hlt]
    · intro heq hge
      subst heq
      simp [confirm_password_reset, h, hs, he, hge]

/-- C6 witness: the spec scenario, a correct code submitted after the expiry
fails with a 400 and the collection, hash included, is unchanged. -/
theorem confirm_reset_cases_witness :
    confirm_password_reset [⟨"9", "carol", "c@x.com", get_password_hash "old",
        0, "", none, some 123456, some 100⟩] "c@x.com" 123456 "newpw" 4000 =
      ([⟨"9", "carol", "c@x.com", get_password_hash "old",
        0, "", none, some 123456, some 100⟩],
        Except.error ⟨400, "Reset code has expired", none⟩) :=
  ((confirm_reset_cases _ "c@x.com" 123456 "newpw" 4000
    ⟨"9", "carol", "c@x.com", get_password_hash "old", 0, "", none, some 123456, some 100⟩
    (by decide)).2 123456 100 rfl rfl).2.1 rfl (by decide)

/-- C3 (amended): the message field of the response is the same generic
sentence whether or not the email resolves to a user, and a missing email
leaves the collection untouched with no dev_only object; but when the email
exists the handler stores a code in the six-digit range 100000..999999 with
a one-hour expiry and the response carries a dev_only object holding the
code and email, so the full response shape does depend on account
existence. -/
theorem reset_request_response (db : UserDB) (email : String) (now rand : Nat) :
    (request_password_reset db email now rand).2.message =
      "If the email exists, a reset code has been sent." ∧
    (get_user_by_email db email = none →
      request_password_reset db email now rand =
        (db, ⟨"If the email exists, a reset code has been sent.", none⟩)) ∧
    (∀ user, get_user_by_email db email = some user →
      request_password_reset db email now rand =
        (updateUserById db user.id (fun u => { u with
            reset_code := some (100000 + rand % 900000),
            reset_code_expiry := some (now + 3600) }),
          ⟨"If the email exists, a reset code has been sent.",
            some (100000 + rand % 900000, email)⟩) ∧
      100000 ≤ 100000 + rand % 900000 ∧ 100000 + rand % 900000 ≤ 999999) := by
  refine ⟨?_, ?_, ?_⟩
  · cases h : get_user_by_email db email <;> simp [request_password_reset, h]
  · intro h
    simp [request_password_reset, h]
  · intro user h
    refine ⟨by simp [request_password_reset, h], Nat.le_add_right _ _, ?_⟩
    have hm : rand % 900000 < 900000 := Nat.mod_lt _ (by decide)
    omega

/-- C3 witness: the generic message on a lookup miss, and the stored range
and dev_only payload on a hit. -/
theorem reset_request_response_witness :
    (request_password_reset [] "a@x.com" 5 7).2.message =
      "If the email exists, a reset code has been sent." ∧
    request_password_reset [] "a@x.com" 5 7 =
      ([], ⟨"If the email exists, a reset code has been sent.", none⟩) ∧
    request_password_reset [⟨"9", "carol", "c@x.com", "pw", 0, "", none, none, none⟩]
        "c@x.com" 5 7 =
      (updateUserById [⟨"9", "carol", "c@x.com", "pw", 0, "", none, none, none⟩] "9"
          (fun u => { u with
            reset_code := some (100000 + 7 % 900000),
            reset_code_expiry := some (5 + 3600) }),
        ⟨"If the email exists, a reset code has been sent.",
          some (100000 + 7 % 900000, "c@x.com")⟩) ∧
    100000 ≤ 100000 + 7 % 900000 ∧ 100000 + 7 % 900000 ≤ 999999 := by
  refine ⟨(reset_request_response [] "a@x.com" 5 7).1,
    (reset_request_response [] "a@x.com" 5 7).2.1 rfl, ?_⟩
  exact (reset_request_response [⟨"9", "carol", "c@x.com", "pw", 0, "", none, none, none⟩]
    "c@x.com" 5 7).2.2 ⟨"9", "carol", "c@x.com", "pw", 0, "", none, none, none⟩ rfl

/-- C3 counterexample: the same request for an existing and a non-existing
email produces responses that differ (the dev_only object appears exactly
when the account exists), so the response is not independent of account
existence as the claim states. -/
theorem reset_request_shape_cex :
    (request_password_reset [⟨"1", "alice", "alice@x.com", "h", 0, "",
        none, none, none⟩] "alice@x.com" 0 0).2 ≠
      (request_password_reset [⟨"1", "alice", "alice@x.com", "h", 0, "",
        none, none, none⟩] "bob@x.com" 0 0).2 := by decide

/-- C7: logout unsets the refresh_token digest on the user's document, and
afterwards any token naming that user — the previously issued refresh token
in particular — is rejected by the spec-modelled refresh operation, since no
stored digest remains to match it. -/
theorem logout_revokes_refresh (db : UserDB) (user : User) (t : Token) (now : Nat)
    (h : find_user_by_id db user.id = some user) :
    find_user_by_id (logout db user).1 user.id = some { user with refresh_token := none } ∧
    (t.sub = some user.id →
      refresh_access_token (logout db user).1 t now = Except.error credentials_exception) := by
  have hfind : find_user_by_id (updateUserById db user.id
      (fun u => { u with refresh_token := none })) user.id =
      some { user with refresh_token := none } :=
    find_updateUserById_self _ h rfl
  refine ⟨hfind, ?_⟩
  intro hsub
  by_cases hc : t.key = SECRET_KEY ∧ now < t.exp
  · have hd : jwt_decode t now = some (t.sub, t.refresh) := by
      unfold jwt_decode
      rw [if_pos hc]
    cases hb : t.refresh with
    | false => simp [refresh_access_token, hd, hsub, hb]
    | true => simp [refresh_access_token, hd, hsub, hb, logout, hfind]
  · have hd : jwt_decode t now = none := by
      unfold jwt_decode
      rw [if_neg hc]
    simp [refresh_access_token, hd]

/-- C7 witness: dave logs out; his stored digest is gone and his still
unexpired refresh token no longer redeems. -/
theorem logout_revokes_refresh_witness :
    find_user_by_id (logout [⟨"7", "dave", "d@x.com", "pw", 0, "",
        some "digest", none, none⟩] ⟨"7", "dave", "d@x.com", "pw", 0, "",
        some "digest", none, none⟩).1 "7" =
      some ⟨"7", "dave", "d@x.com", "pw", 0, "", none, none, none⟩ ∧
    refresh_access_token (logout [⟨"7", "dave", "d@x.com", "pw", 0, "",
        some "digest", none, none⟩] ⟨"7", "dave", "d@x.com", "pw", 0, "",
        some "digest", none, none⟩).1 (create_access_token "7" true 0 999) 5 =
      Except.error credentials_exception := by
  have h := logout_revokes_refresh
    [⟨"7", "dave", "d@x.com", "pw", 0, "", some "digest", none, none⟩]
    ⟨"7", "dave", "d@x.com", "pw", 0, "", some "digest", none, none⟩
    (create_access_token "7" true 0 999) 5 (by decide)
  exact ⟨h.1, h.2 rfl⟩

/-- C10: get_current_user accepts any token signed with SECRET_KEY that is
unexpired and whose sub claim resolves to a user, whatever the refresh claim
says: a refresh token (refresh set to true) authenticates exactly like an
access token, and flipping the refresh claim of any token never changes the
outcome. -/
theorem get_current_user_ignores_refresh (db : UserDB) (uid : String) (u : User)
    (b : Bool) (issued ttl now : Nat) (t : Token)
    (h : find_user_by_id db uid = some u) (hnow : now < issued + ttl) :
    get_current_user db (create_access_token uid b issued ttl) now = Except.ok u ∧
    get_current_user db { t with refresh := b } now = get_current_user db t now := by
  constructor
  · have hd : jwt_decode (create_access_token uid b issued ttl) now = some (some uid, b) := by
      unfold jwt_decode create_access_token
      rw [if_pos ⟨rfl, hnow⟩]
    simp [get_current_user, hd, h]
  · unfold get_current_user
    by_cases hc : t.key = SECRET_KEY ∧ now < t.exp
    · have hd : jwt_decode t now = some (t.sub, t.refresh) := by
        unfold jwt_decode
        rw [if_pos hc]
      have hd2 : jwt_decode { t with refresh := b } now = some (t.sub, b) := by
        unfold jwt_decode
        rw [if_pos hc]
      rw [hd, hd2]
      cases t.sub <;> rfl
    · have hd : jwt_decode t now = none := by
        unfold jwt_decode
        rw [if_neg hc]
      have hd2 : jwt_decode { t with refresh := b } now = none := by
        unfold jwt_decode
        rw [if_neg hc]
      rw [hd, hd2]

/-- C10 witness: a refresh token for erin, presented well before its expiry,
is accepted by get_current_user as if it were an access token. -/
theorem get_current_user_ignores_refresh_witness :
    get_current_user [⟨"3", "erin", "e@x.com", "pw", 0, "", none, none, none⟩]
      (create_access_token "3" true 0 100) 50 =
      Except.ok ⟨"3", "erin", "e@x.com", "pw", 0, "", none, none, none⟩ ∧
    get_current_user [⟨"3", "erin", "e@x.com", "pw", 0, "", none, none, none⟩]
      { (create_access_token "3" false 0 100) with refresh := true } 50 =
      get_current_user [⟨"3", "erin", "e@x.com", "pw", 0, "", none, none, none⟩]
        (create_access_token "3" false 0 100) 50 :=
  get_current_user_ignores_refresh
    [⟨"3", "erin", "e@x.com", "pw", 0, "", none, none, none⟩] "3"
    ⟨"3", "erin", "e@x.com", "pw", 0, "", none, none, none⟩ true 0 100 50
    (create_access_token "3" false 0 100) (by decide) (by decide)
